import Mathlib

/-!
Verification development for the feed-event text parsing and rendering core
of the mmolb_parsing repository.

Text is modelled as `List Char`. A parser over text is a total function
returning `none` on no-match and `some (value, remaining)` on a (possibly
prefix) match, mirroring nom parsers in complete mode. The grammar
compositions and the dispatcher follow src/nom_parsing/parse_feed_event.rs;
the renderer follows src/feed_event/feed_event_text.rs. Leaf tokenizers,
the era resolver and the event record are modelled from the specification,
as their defining files are not part of the provided sources; each such
definition carries a doc comment saying so.
-/

/-- Parser type: a nom parser in complete mode, `none` on failure,
`some (value, remaining input)` on success. -/
def P (α : Type) : Type := List Char → Option (α × List Char)

/-- The apostrophe character, used by the possessive marker. -/
def apos : Char := Char.ofNat 39

/-- Modelled from the spec: literal-anchor matching. Consumes the literal
from the front of the input, or fails. Helper for the nom tag tokenizer. -/
def drop_lit : List Char → List Char → Option (List Char)
  | [], t => some t
  | _ :: _, [] => none
  | l :: ls, c :: cs => if l = c then drop_lit ls cs else none

/-- Modelled from the spec: the nom tag tokenizer (literal match). -/
def tag (lit : List Char) : P (List Char) :=
  fun t => (drop_lit lit t).map fun r => (lit, r)

/-- Modelled from the spec: capture-until-marker. Greedily captures all
characters before the first literal occurrence of the marker, consumes the
marker, and fails if the marker never occurs. -/
def split_terminated (marker : List Char) : List Char → Option (List Char × List Char)
  | [] =>
    match drop_lit marker [] with
    | some rest => some ([], rest)
    | none => none
  | c :: cs =>
    match drop_lit marker (c :: cs) with
    | some rest => some ([], rest)
    | none =>
      match split_terminated marker cs with
      | some pr => some (c :: pr.1, pr.2)
      | none => none

/-- Modelled from the spec: the parse_terminated shared tokenizer
(capture until a literal marker, consuming both). -/
def parse_terminated (marker : List Char) : P (List Char) :=
  fun t => split_terminated marker t

/-- Numeric value of a list of ASCII digits. -/
def digits_val (l : List Char) : Nat :=
  l.foldl (fun acc c => acc * 10 + (c.toNat - 48)) 0

/-- Modelled from the spec: unsigned integer capture (nom u8): one or more
ASCII digits whose value fits in 0..255. -/
def nom_u8 : P Nat := fun t =>
  let s := t.span Char.isDigit
  if s.1 = [] then none
  else if digits_val s.1 ≤ 255 then some (digits_val s.1, s.2) else none

/-- Digit-run capture used by the signed integer tokenizer. -/
def nom_digits : P Nat := fun t =>
  let s := t.span Char.isDigit
  if s.1 = [] then none else some (digits_val s.1, s.2)

/-- Modelled from the spec: signed integer capture (nom i16): optional sign
then ASCII digits, in the i16 range. -/
def nom_i16 : P Int := fun t =>
  match t with
  | c :: r =>
    if c = Char.ofNat 45 then
      (nom_digits r).bind fun s =>
        if s.1 ≤ 32768 then some (-(s.1 : Int), s.2) else none
    else if c = Char.ofNat 43 then
      (nom_digits r).bind fun s =>
        if s.1 ≤ 32767 then some ((s.1 : Int), s.2) else none
    else
      (nom_digits t).bind fun s =>
        if s.1 ≤ 32767 then some ((s.1 : Int), s.2) else none
  | [] => none

/-- Modelled from the spec: the external primitive matcher for a single
emoji glyph, approximated as any scalar at or beyond U+1F000. -/
def isEmojiChar (c : Char) : Bool := decide (0x1F000 ≤ c.toNat)

/-- Consume an optional single space (nom opt of a space tag). -/
def opt_space (t : List Char) : List Char :=
  match t with
  | c :: r => if c = ' ' then r else t
  | [] => t

/-- Consume an optional literal (nom opt of a tag). -/
def opt_tag (lit : List Char) (t : List Char) : List Char :=
  match drop_lit lit t with
  | some r => r
  | none => t

/-- Capture a nonempty run of letters (word capture for vocabulary
lookups). -/
def word_step (t : List Char) : Option (List Char × List Char) :=
  let s := t.span Char.isAlpha
  if s.1 = [] then none else some s

/-- Ordered-alternative combinator: try each parser in declared order,
commit to the first success (nom alt). -/
def alt_list {α : Type} : List (P α) → P α
  | [] => fun _t => none
  | p :: ps => fun t =>
    match p t with
    | some r => some r
    | none => alt_list ps t

/-- Fuelled greedy repetition: collect matches while the inner parser
succeeds and consumes input. -/
def many0F {α : Type} (p : P α) : Nat → List Char → List α × List Char
  | 0, t => ([], t)
  | n + 1, t =>
    match p t with
    | none => ([], t)
    | some s =>
      if s.2.length < t.length then
        (s.1 :: (many0F p n s.2).1, (many0F p n s.2).2)
      else ([], t)

/-- Greedy repetition, zero or more matches (nom many0). -/
def many0 {α : Type} (p : P α) (t : List Char) : List α × List Char :=
  many0F p t.length t

/-- Greedy repetition, one or more matches (nom many1). -/
def many1 {α : Type} (p : P α) : P (List α) := fun t =>
  (p t).map fun s => (s.1 :: (many0 p s.2).1, (many0 p s.2).2)

/-- Modelled from the spec: the two coarse feed event classifications
(src enums are not among the provided files). -/
inductive FeedEventType
  | Game
  | Augment
deriving DecidableEq, Repr

/-- Modelled from the spec: the narrator/source tag (umpire-narrated vs
player-narrated sentences). -/
inductive FeedEventSource
  | Player
  | Umpire
deriving DecidableEq, Repr

/-- Modelled from the spec: the enumerated player-attribute vocabulary,
restricted to the members the spec names. -/
inductive Attribute
  | Awareness
  | Unthwackability
  | Ruthlessness
deriving DecidableEq, Repr

/-- Modelled from the spec: vocabulary lookup for attribute words. -/
def attribute_of_word (w : List Char) : Option Attribute :=
  if w = "Awareness".toList then some Attribute.Awareness
  else if w = "Unthwackability".toList then some Attribute.Unthwackability
  else if w = "Ruthlessness".toList then some Attribute.Ruthlessness
  else none

/-- Modelled from the spec: the try_from_word shared tokenizer: capture one
word and map it against the attribute vocabulary, failing on no match. -/
def try_from_word : P Attribute := fun t =>
  (word_step t).bind fun s => (attribute_of_word s.1).map fun a => (a, s.2)

/-- Modelled from the spec: item prefix vocabulary (representative member;
the Rust type is named ItemPrefix). -/
inductive ItemPrefixTag
  | Shiny
deriving DecidableEq, Repr

/-- Modelled from the spec: item type vocabulary (representative members). -/
inductive ItemType
  | Bat
  | Glove
deriving DecidableEq, Repr

/-- Modelled from the spec: item suffix vocabulary (representative member). -/
inductive ItemSuffix
  | Winds
deriving DecidableEq, Repr

/-- Modelled from the spec: item prefix word lookup. -/
def item_prefix_of_word (w : List Char) : Option ItemPrefixTag :=
  if w = "Shiny".toList then some ItemPrefixTag.Shiny else none

/-- Modelled from the spec: item type word lookup. -/
def item_type_of_word (w : List Char) : Option ItemType :=
  if w = "Bat".toList then some ItemType.Bat
  else if w = "Glove".toList then some ItemType.Glove
  else none

/-- Modelled from the spec: item suffix word lookup. -/
def item_suffix_of_word (w : List Char) : Option ItemSuffix :=
  if w = "Winds".toList then some ItemSuffix.Winds else none

/-- Modelled from the spec: the unrecognized-token payload returned by the
upstream classifier. -/
structure NotRecognized where
  token : List Char
deriving DecidableEq, Repr

/-- Modelled from the spec (input contract): the event record consumed by
the core: raw text, a classification result that is either a recognized
coarse type or an unrecognized token, a season, and a day that is a number
or unknown (the Rust day field is a Result whose ok() is taken before use). -/
structure FeedEvent where
  text : List Char
  event_type : Except NotRecognized FeedEventType
  season : Nat
  day : Option Nat

/-- Modelled from the spec: the era resolver is a fixed table of named
thresholds, each a (season, optional day) pair. -/
inductive Breakpoints
  | S1AttributeEqualChange
  | Season1EnchantmentChange
deriving DecidableEq, Repr

/-- Modelled from the spec: the fixed threshold table. The spec fixes the
names but not the numeric values; representative season-1 day values are
used, and no claim below depends on the particular numbers. -/
def Breakpoints.threshold : Breakpoints → Nat × Nat
  | .S1AttributeEqualChange => (1, 120)
  | .Season1EnchantmentChange => (1, 79)

/-- Modelled from the spec: total, pure comparison: is the event's
(season, day) at or after the threshold? An unknown day is treated as the
earliest possible day, per the spec's stated default. The Rust method takes
a third optional argument that is always None at the call sites in the
provided sources; it is omitted. -/
def Breakpoints.after (b : Breakpoints) (season : Nat) (day : Option Nat) : Bool :=
  let t := b.threshold
  let d := day.getD 0
  decide (t.1 < season ∨ (t.1 = season ∧ t.2 ≤ d))

/-- Modelled from the spec: total, pure comparison: is the event's
(season, day) strictly before the threshold? -/
def Breakpoints.before (b : Breakpoints) (season : Nat) (day : Option Nat) : Bool :=
  let t := b.threshold
  let d := day.getD 0
  decide (season < t.1 ∨ (season = t.1 ∧ d < t.2))

/-- Modelled from the spec: an emoji glyph plus free-text team name
(parsed_event::EmojiTeam, whose defining file is not among the sources;
field names follow the repository's test module). -/
structure EmojiTeam where
  emoji : List Char
  name : List Char
deriving DecidableEq, Repr

/-- Item descriptor without a decorative glyph: optional prefix tag,
required item-type tag, optional suffix tag (the Rust field prefix is
named pre here). -/
structure EmojilessItem where
  pre : Option ItemPrefixTag
  item : ItemType
  suffix : Option ItemSuffix
deriving DecidableEq, Repr

/-- Modelled from the spec: a delivered item: one emoji glyph plus the
prefix/type/suffix vocabulary triple (parsed_event::Item, whose defining
file is not among the sources). -/
structure Item where
  emoji : List Char
  pre : Option ItemPrefixTag
  item : ItemType
  suffix : Option ItemSuffix
deriving DecidableEq, Repr

/-- One parsed attribute-change repetition. -/
structure AttributeChange where
  player_name : List Char
  amount : Int
  attr : Attribute
deriving DecidableEq, Repr

/-- One parsed attribute-equality repetition. -/
structure AttributeEqual where
  player_name : List Char
  changing_attribute : Attribute
  value_attribute : Attribute
deriving DecidableEq, Repr

/-- A parsed delivery: player, received item, optional discarded item. -/
structure FeedDelivery where
  player : List Char
  item : Item
  discarded : Option Item
deriving DecidableEq, Repr

/-- The closed set of failure reasons, represented as data. -/
inductive FeedEventParseError
  | EventTypeNotRecognized (err : NotRecognized)
  | FailedParsingText (event_type : FeedEventType) (text : List Char)
deriving DecidableEq, Repr

/-- The parsed result: a closed tagged union with exactly one active
variant per value. The Rust type is generic over the text storage; the
embedding fixes text to List Char, which the spec allows as a valid
storage choice. -/
inductive ParsedFeedEventText
  | ParseError (error : FeedEventParseError) (text : List Char)
  | GameResult (home_team : EmojiTeam) (away_team : EmojiTeam)
      (home_score : Nat) (away_score : Nat)
  | Delivery (delivery : FeedDelivery)
  | Shipment (delivery : FeedDelivery)
  | SpecialDelivery (delivery : FeedDelivery)
  | AttributeChanges (changes : List AttributeChange)
  | AttributeEquals (equals : List AttributeEqual)
  | S1Enchantment (player_name : List Char) (item : EmojilessItem)
      (amount : Nat) (attr : Attribute)
  | S2Enchantment (player_name : List Char) (item : EmojilessItem)
      (amount : Nat) (attr : Attribute)
      (enchant_two : Option (Nat × Attribute)) (compensatory : Bool)
  | ROBO (player_name : List Char)
  | TakeTheMound (to_mound_player : List Char) (to_lineup_player : List Char)
  | TakeThePlate (to_plate_player : List Char) (from_lineup_player : List Char)
  | SwapPlaces (player_one : List Char) (player_two : List Char)
  | HitByFallingStar (player : List Char)
deriving DecidableEq, Repr

/-- Literal marker " vs. ". -/
def vs_marker : List Char := " vs. ".toList

/-- Literal marker " - ". -/
def dash_marker : List Char := " - ".toList

/-- Literal "FINAL ". -/
def final_lit : List Char := "FINAL ".toList

/-- Literal "-". -/
def hyphen : List Char := "-".toList

/-- Literal ".". -/
def dot_l : List Char := ".".toList

/-- Literal " ". -/
def sp_l : List Char := " ".toList

/-- Possessive marker: apostrophe, s, space. -/
def poss_marker : List Char := [apos, 's', ' ']

/-- Literal " gained +". -/
def gained_plus_marker : List Char := " gained +".toList

/-- Literal " was set to their ". -/
def was_set_marker : List Char := " was set to their ".toList

/-- Literal " became equal to their base ". -/
def base_marker : List Char := " became equal to their base ".toList

/-- Literal " became equal to their current base ". -/
def current_base_marker : List Char := " became equal to their current base ".toList

/-- Literal " was enchanted with +". -/
def enchanted_with_plus : List Char := " was enchanted with +".toList

/-- Literal " to ". -/
def to_marker : List Char := " to ".toList

/-- Literal "The Item Enchantment was a success! ". -/
def item_success_head : List Char := "The Item Enchantment was a success! ".toList

/-- Literal "The Compensatory Enchantment was a success! ". -/
def comp_success_head : List Char := "The Compensatory Enchantment was a success! ".toList

/-- Literal " gained a +". -/
def gained_a_plus : List Char := " gained a +".toList

/-- Literal " bonus.". -/
def bonus_marker : List Char := " bonus.".toList

/-- Literal " was enchanted with ". -/
def enchanted_with : List Char := " was enchanted with ".toList

/-- Literal "a ". -/
def a_sp : List Char := "a ".toList

/-- Literal "+". -/
def plus_l : List Char := "+".toList

/-- Literal " and +". -/
def and_plus : List Char := " and +".toList

/-- Literal " was hit by a Falling Star!". -/
def falling_star_marker : List Char := " was hit by a Falling Star!".toList

/-- Literal " received a ". -/
def received_marker : List Char := " received a ".toList

/-- Literal " They discarded their ". -/
def discard_marker : List Char := " They discarded their ".toList

/-- Literal " gained the ROBO Modification.". -/
def robo_marker : List Char := " gained the ROBO Modification.".toList

/-- Literal " was moved to the mound. ". -/
def moved_mound_marker : List Char := " was moved to the mound. ".toList

/-- Literal " was sent to the lineup.". -/
def sent_lineup_marker : List Char := " was sent to the lineup.".toList

/-- Literal " was sent to the plate. ". -/
def sent_plate_marker : List Char := " was sent to the plate. ".toList

/-- Literal " was pulled from the lineup.". -/
def pulled_lineup_marker : List Char := " was pulled from the lineup.".toList

/-- Literal " swapped places with ". -/
def swapped_marker : List Char := " swapped places with ".toList

/-- Modelled from the spec: emoji+team-name pair capture, anchored to the
end of its input segment: one leading emoji glyph, a space, then the team
name as the rest of the segment. -/
def emoji_team_eof (t : List Char) : Option EmojiTeam :=
  match t with
  | e :: c :: rest =>
    if isEmojiChar e ∧ c = ' ' then some ⟨[e], rest⟩ else none
  | _ => none

/-- Modelled from the spec: optional item-prefix word step of the
emojiless item tokenizer. Consumes a recognized prefix word and the space
after it, or consumes nothing. -/
def item_prefix_step (t : List Char) : Option ItemPrefixTag × List Char :=
  match word_step t with
  | some s =>
    match item_prefix_of_word s.1, s.2 with
    | some p, ' ' :: r2 => (some p, r2)
    | _, _ => (none, t)
  | none => (none, t)

/-- Modelled from the spec: optional item-suffix word step of the
emojiless item tokenizer. Consumes a space and a recognized suffix word,
or consumes nothing. -/
def item_suffix_step (t : List Char) : Option ItemSuffix × List Char :=
  match t with
  | ' ' :: r =>
    (match word_step r with
     | some s =>
       match item_suffix_of_word s.1 with
       | some sf => (some sf, s.2)
       | none => (none, t)
     | none => (none, t))
  | _ => (none, t)

/-- Modelled from the spec: the emojiless_item shared tokenizer: optional
prefix tag, required item-type tag, optional suffix tag, each a vocabulary
word. -/
def emojiless_item : P EmojilessItem := fun t =>
  (match item_prefix_step t with
   | (pre, t1) =>
     (word_step t1).bind fun s =>
       (item_type_of_word s.1).map fun ty =>
         match item_suffix_step s.2 with
         | (suf, t2) => (⟨pre, ty, suf⟩, t2))

/-- Modelled from the spec: a delivered item: one emoji glyph, a space,
then the emojiless prefix/type/suffix triple. -/
def feed_item : P Item := fun t =>
  match t with
  | e :: c :: rest =>
    if isEmojiChar e ∧ c = ' ' then
      (emojiless_item rest).map fun s =>
        (⟨[e], s.1.pre, s.1.item, s.1.suffix⟩, s.2)
    else none
  | _ => none

/-- Modelled from the spec: name capture anchored to end of input: the
whole nonempty remainder is the name. -/
def name_eof : P (List Char) := fun t =>
  if t = [] then none else some (t, [])

/-- Modelled from the spec: a sentence anchored to end-of-input: the whole
input must end with a period, and the inner parser must consume exactly
the text before that final period. -/
def sentence_eof {α : Type} (p : P α) : P α := fun t =>
  if t.getLast? = some '.' then
    (p t.dropLast).bind fun s => if s.2 = [] then some (s.1, []) else none
  else none

/-- Core of the game-result grammar (src game_result): away team segment,
home team segment, then FINAL away_score-home_score. -/
def game_result_core : P (EmojiTeam × EmojiTeam × Nat × Nat) := fun t =>
  (parse_terminated vs_marker t).bind fun s1 =>
  (emoji_team_eof s1.1).bind fun away =>
  (parse_terminated dash_marker s1.2).bind fun s2 =>
  (emoji_team_eof s2.1).bind fun home =>
  (tag final_lit s2.2).bind fun s3 =>
  (nom_u8 s3.2).bind fun s4 =>
  (tag hyphen s4.2).bind fun s5 =>
  (nom_u8 s5.2).map fun s6 =>
  ((away, home, s4.1, s6.1), s6.2)

/-- The game-result variant grammar (src game_result). -/
def game_result : P ParsedFeedEventText := fun t =>
  (game_result_core t).map fun s =>
    (.GameResult s.1.2.1 s.1.1 s.1.2.2.2 s.1.2.2.1, s.2)

/-- Optional discard clause of the delivery grammar (src feed_delivery,
modelled from the spec for the shared tokenizer internals). -/
def discard_clause : P Item := fun t =>
  (tag discard_marker t).bind fun s1 =>
  (feed_item s1.2).bind fun s2 =>
  (tag dot_l s2.2).map fun s3 => (s2.1, s3.2)

/-- Modelled from the spec: the shared delivery grammar, parameterized by
the literal label: player, received item, label sentence, then an optional
discard clause. -/
def feed_delivery (label : List Char) : P FeedDelivery := fun t =>
  (parse_terminated received_marker t).bind fun s1 =>
  (feed_item s1.2).bind fun s2 =>
  (tag (' ' :: (label ++ dot_l)) s2.2).bind fun s3 =>
  match discard_clause s3.2 with
  | some s4 => some (⟨s1.1, s2.1, some s4.1⟩, s4.2)
  | none => some (⟨s1.1, s2.1, none⟩, s3.2)

/-- The Delivery variant grammar (src game, feed_delivery "Delivery"). -/
def delivery_event : P ParsedFeedEventText := fun t =>
  (feed_delivery "Delivery".toList t).map fun s => (.Delivery s.1, s.2)

/-- The Shipment variant grammar (src game, feed_delivery "Shipment"). -/
def shipment_event : P ParsedFeedEventText := fun t =>
  (feed_delivery "Shipment".toList t).map fun s => (.Shipment s.1, s.2)

/-- The SpecialDelivery variant grammar (src game,
feed_delivery "Special Delivery"). -/
def special_delivery_event : P ParsedFeedEventText := fun t =>
  (feed_delivery "Special Delivery".toList t).map fun s =>
    (.SpecialDelivery s.1, s.2)

/-- The falling-star variant grammar (src hit_by_falling_star). -/
def hit_by_falling_star : P ParsedFeedEventText := fun t =>
  (parse_terminated falling_star_marker t).map fun s =>
    (.HitByFallingStar s.1, s.2)

/-- One repetition of the attribute-change grammar (src attribute_gain
inner tuple): optional space, player until " gained +", signed amount,
space, attribute word, period. -/
def attribute_gain_rep : P AttributeChange := fun t =>
  (parse_terminated gained_plus_marker (opt_space t)).bind fun s1 =>
  (nom_i16 s1.2).bind fun s2 =>
  (tag sp_l s2.2).bind fun s3 =>
  (try_from_word s3.2).bind fun s4 =>
  (tag dot_l s4.2).map fun s5 =>
  (⟨s1.1, s2.1, s4.1⟩, s5.2)

/-- The attribute-change variant grammar (src attribute_gain): one or more
repetitions, collected greedily in order. -/
def attribute_gain : P ParsedFeedEventText := fun t =>
  (many1 attribute_gain_rep t).map fun s => (.AttributeChanges s.1, s.2)

/-- One repetition of the attribute-equality grammar, parameterized by the
era wording marker (src attribute_equal_1/2/3 inner tuple): optional
space, player until the possessive marker, changing attribute, wording
marker, value attribute, period. -/
def attribute_equal_rep (marker : List Char) : P AttributeEqual := fun t =>
  (parse_terminated poss_marker (opt_space t)).bind fun s1 =>
  (try_from_word s1.2).bind fun s2 =>
  (tag marker s2.2).bind fun s3 =>
  (try_from_word s3.2).bind fun s4 =>
  (tag dot_l s4.2).map fun s5 =>
  (⟨s1.1, s2.1, s4.1⟩, s5.2)

/-- The attribute-equality grammar in the "was set to their" wording
(src attribute_equal_1). -/
def attribute_equal_1 : P ParsedFeedEventText := fun t =>
  (many1 (attribute_equal_rep was_set_marker) t).map fun s =>
    (.AttributeEquals s.1, s.2)

/-- The attribute-equality grammar in the "became equal to their base"
wording (src attribute_equal_2). -/
def attribute_equal_2 : P ParsedFeedEventText := fun t =>
  (many1 (attribute_equal_rep base_marker) t).map fun s =>
    (.AttributeEquals s.1, s.2)

/-- The attribute-equality grammar in the "became equal to their current
base" wording (src attribute_equal_3). -/
def attribute_equal_3 : P ParsedFeedEventText := fun t =>
  (many1 (attribute_equal_rep current_base_marker) t).map fun s =>
    (.AttributeEquals s.1, s.2)

/-- Core of the first season-1 enchantment wording (src enchantment_s1a). -/
def enchantment_s1a_core : P (List Char × EmojilessItem × Nat × Attribute) := fun t =>
  (parse_terminated poss_marker t).bind fun s1 =>
  (emojiless_item s1.2).bind fun s2 =>
  (tag enchanted_with_plus s2.2).bind fun s3 =>
  (nom_u8 s3.2).bind fun s4 =>
  (tag to_marker s4.2).bind fun s5 =>
  (try_from_word s5.2).bind fun s6 =>
  (tag dot_l s6.2).map fun s7 =>
  ((s1.1, s2.1, s4.1, s6.1), s7.2)

/-- The first season-1 enchantment wording grammar (src enchantment_s1a). -/
def enchantment_s1a : P ParsedFeedEventText := fun t =>
  (enchantment_s1a_core t).map fun s =>
    (.S1Enchantment s.1.1 s.1.2.1 s.1.2.2.1 s.1.2.2.2, s.2)

/-- Core of the second season-1 enchantment wording (src enchantment_s1b). -/
def enchantment_s1b_core : P (List Char × EmojilessItem × Nat × Attribute) := fun t =>
  (tag item_success_head t).bind fun s0 =>
  (parse_terminated poss_marker s0.2).bind fun s1 =>
  (emojiless_item s1.2).bind fun s2 =>
  (tag gained_a_plus s2.2).bind fun s3 =>
  (nom_u8 s3.2).bind fun s4 =>
  (tag sp_l s4.2).bind fun s5 =>
  (try_from_word s5.2).bind fun s6 =>
  (tag bonus_marker s6.2).map fun s7 =>
  ((s1.1, s2.1, s4.1, s6.1), s7.2)

/-- The second season-1 enchantment wording grammar (src enchantment_s1b). -/
def enchantment_s1b : P ParsedFeedEventText := fun t =>
  (enchantment_s1b_core t).map fun s =>
    (.S1Enchantment s.1.1 s.1.2.1 s.1.2.2.1 s.1.2.2.2, s.2)

/-- Core of the season-2 enchantment grammar (src enchantment_s2). -/
def enchantment_s2_core :
    P (List Char × EmojilessItem × Nat × Attribute × Nat × Attribute) := fun t =>
  (tag item_success_head t).bind fun s0 =>
  (parse_terminated poss_marker s0.2).bind fun s1 =>
  (emojiless_item s1.2).bind fun s2 =>
  (tag enchanted_with s2.2).bind fun s3 =>
  (tag plus_l (opt_tag a_sp s3.2)).bind fun s4 =>
  (nom_u8 s4.2).bind fun s5 =>
  (tag sp_l s5.2).bind fun s6 =>
  (try_from_word s6.2).bind fun s7 =>
  (tag and_plus s7.2).bind fun s8 =>
  (nom_u8 s8.2).bind fun s9 =>
  (tag sp_l s9.2).bind fun s10 =>
  (try_from_word s10.2).bind fun s11 =>
  (tag dot_l s11.2).map fun s12 =>
  ((s1.1, s2.1, s5.1, s7.1, s9.1, s11.1), s12.2)

/-- The season-2 enchantment grammar (src enchantment_s2): two attribute
bonuses, compensatory flag false. -/
def enchantment_s2 : P ParsedFeedEventText := fun t =>
  (enchantment_s2_core t).map fun s =>
    (.S2Enchantment s.1.1 s.1.2.1 s.1.2.2.1 s.1.2.2.2.1
      (some (s.1.2.2.2.2.1, s.1.2.2.2.2.2)) false, s.2)

/-- Two-bonus body of the compensatory enchantment grammar
(src enchantment_compensatory, first alternative). -/
def comp_body_two : P (Nat × Attribute × Option (Nat × Attribute)) := fun t =>
  (tag enchanted_with t).bind fun s3 =>
  (tag plus_l (opt_tag a_sp s3.2)).bind fun s4 =>
  (nom_u8 s4.2).bind fun s5 =>
  (tag sp_l s5.2).bind fun s6 =>
  (try_from_word s6.2).bind fun s7 =>
  (tag and_plus s7.2).bind fun s8 =>
  (nom_u8 s8.2).bind fun s9 =>
  (tag sp_l s9.2).bind fun s10 =>
  (try_from_word s10.2).bind fun s11 =>
  (tag dot_l s11.2).map fun s12 =>
  ((s5.1, s7.1, some (s9.1, s11.1)), s12.2)

/-- Single-bonus fallback body of the compensatory enchantment grammar
(src enchantment_compensatory, second alternative). -/
def comp_body_one : P (Nat × Attribute × Option (Nat × Attribute)) := fun t =>
  (tag gained_a_plus t).bind fun s3 =>
  (nom_u8 s3.2).bind fun s4 =>
  (tag sp_l s4.2).bind fun s5 =>
  (try_from_word s5.2).bind fun s6 =>
  (tag bonus_marker s6.2).map fun s7 =>
  ((s4.1, s6.1, none), s7.2)

/-- Core of the compensatory enchantment grammar
(src enchantment_compensatory). -/
def enchantment_compensatory_core :
    P (List Char × EmojilessItem × Nat × Attribute × Option (Nat × Attribute)) := fun t =>
  (tag comp_success_head t).bind fun s0 =>
  (parse_terminated poss_marker s0.2).bind fun s1 =>
  (emojiless_item s1.2).bind fun s2 =>
  ((match comp_body_two s2.2 with
    | some b => some b
    | none => comp_body_one s2.2 :
      Option ((Nat × Attribute × Option (Nat × Attribute)) × List Char))).map fun sb =>
  ((s1.1, s2.1, sb.1.1, sb.1.2.1, sb.1.2.2), sb.2)

/-- The compensatory enchantment grammar (src enchantment_compensatory):
compensatory flag true. -/
def enchantment_compensatory : P ParsedFeedEventText := fun t =>
  (enchantment_compensatory_core t).map fun s =>
    (.S2Enchantment s.1.1 s.1.2.1 s.1.2.2.1 s.1.2.2.2.1 s.1.2.2.2.2 true, s.2)

/-- The ROBO modification grammar (src robo). -/
def robo : P ParsedFeedEventText := fun t =>
  (parse_terminated robo_marker t).map fun s => (.ROBO s.1, s.2)

/-- Core of the take-the-mound grammar (src take_the_mound). -/
def take_the_mound_core : P (List Char × List Char) := fun t =>
  (parse_terminated moved_mound_marker t).bind fun s1 =>
  (parse_terminated sent_lineup_marker s1.2).map fun s2 =>
  ((s1.1, s2.1), s2.2)

/-- The take-the-mound grammar (src take_the_mound). -/
def take_the_mound : P ParsedFeedEventText := fun t =>
  (take_the_mound_core t).map fun s => (.TakeTheMound s.1.1 s.1.2, s.2)

/-- Core of the take-the-plate grammar (src take_the_plate). -/
def take_the_plate_core : P (List Char × List Char) := fun t =>
  (parse_terminated sent_plate_marker t).bind fun s1 =>
  (parse_terminated pulled_lineup_marker s1.2).map fun s2 =>
  ((s1.1, s2.1), s2.2)

/-- The take-the-plate grammar (src take_the_plate). -/
def take_the_plate : P ParsedFeedEventText := fun t =>
  (take_the_plate_core t).map fun s => (.TakeThePlate s.1.1 s.1.2, s.2)

/-- Core of the swap-places grammar (src swap_places): a sentence anchored
to end-of-input whose body is player one until the literal marker, then
player two to the end. -/
def swap_places_core : P (List Char × List Char) :=
  sentence_eof fun t =>
    (parse_terminated swapped_marker t).bind fun s1 =>
    (name_eof s1.2).map fun s2 => ((s1.1, s2.1), s2.2)

/-- The swap-places grammar (src swap_places). -/
def swap_places : P ParsedFeedEventText := fun t =>
  (swap_places_core t).map fun s => (.SwapPlaces s.1.1 s.1.2, s.2)

/-- The fixed, declared-order candidate list for the Game coarse type
(src game). -/
def game_list : List (P ParsedFeedEventText) :=
  [game_result, delivery_event, shipment_event, special_delivery_event,
   hit_by_falling_star]

/-- The fixed, declared-order candidate list for the Augment coarse type
(src augment). -/
def augment_list : List (P ParsedFeedEventText) :=
  [attribute_gain, enchantment_s1a, enchantment_s1b, enchantment_s2,
   enchantment_compensatory, robo, take_the_mound, take_the_plate,
   attribute_equal_1, attribute_equal_2, attribute_equal_3, swap_places]

/-- The Game bucket grammar: ordered alternatives over game_list (src game). -/
def game : P ParsedFeedEventText := alt_list game_list

/-- The Augment bucket grammar: ordered alternatives over augment_list
(src augment). -/
def augment : P ParsedFeedEventText := alt_list augment_list

/-- The candidate list selected for a coarse classification. -/
def grammar_list : FeedEventType → List (P ParsedFeedEventText)
  | .Game => game_list
  | .Augment => augment_list

/-- The grammar selected for a coarse classification. -/
def grammar_for : FeedEventType → P ParsedFeedEventText
  | .Game => game
  | .Augment => augment

/-- The dispatcher (src parse_feed_event): unknown classification
short-circuits to the unknown-classification error carrying the original
text; otherwise the bucket grammar runs on the text, a full match returns
the structured variant, and leftover or failure yields FailedParsingText
carrying the coarse type and original text. -/
def parse_feed_event (event : FeedEvent) : ParsedFeedEventText :=
  match event.event_type with
  | Except.error e =>
    .ParseError (.EventTypeNotRecognized e) event.text
  | Except.ok ty =>
    match grammar_for ty event.text with
    | some (out, []) => out
    | some (_, _ :: _) =>
      .ParseError (.FailedParsingText ty event.text) event.text
    | none =>
      .ParseError (.FailedParsingText ty event.text) event.text

/-- Decimal rendering of a natural number. -/
def nat_chars (n : Nat) : List Char := Nat.toDigits 10 n

/-- Decimal rendering of an integer (Rust Display for i16). -/
def int_chars (i : Int) : List Char :=
  if i < 0 then '-' :: nat_chars i.natAbs else nat_chars i.natAbs

/-- Rendering of an attribute name (Rust Display for Attribute). -/
def attr_chars : Attribute → List Char
  | .Awareness => "Awareness".toList
  | .Unthwackability => "Unthwackability".toList
  | .Ruthlessness => "Ruthlessness".toList

/-- Rendering of an item prefix word. -/
def item_prefix_chars : ItemPrefixTag → List Char
  | .Shiny => "Shiny".toList

/-- Rendering of an item type word. -/
def item_type_chars : ItemType → List Char
  | .Bat => "Bat".toList
  | .Glove => "Glove".toList

/-- Rendering of an item suffix word. -/
def item_suffix_chars : ItemSuffix → List Char
  | .Winds => "Winds".toList

/-- Rendering of an emojiless item (src Display for EmojilessItem):
optional prefix and space, item word, optional space and suffix. -/
def EmojilessItem.display (it : EmojilessItem) : List Char :=
  (match it.pre with
   | some p => item_prefix_chars p ++ [' ']
   | none => []) ++
  item_type_chars it.item ++
  (match it.suffix with
   | some s => ' ' :: item_suffix_chars s
   | none => [])

/-- Modelled from the spec: rendering of a delivered item: emoji glyph,
space, then the emojiless triple. -/
def Item.display (it : Item) : List Char :=
  it.emoji ++ ' ' :: EmojilessItem.display ⟨it.pre, it.item, it.suffix⟩

/-- Modelled from the spec: rendering of an emoji team: glyph, space,
name. -/
def EmojiTeam.display (t : EmojiTeam) : List Char :=
  t.emoji ++ ' ' :: t.name

/-- Join rendered sentences with a single space (Rust join " "). -/
def join_sp : List (List Char) → List Char
  | [] => []
  | [x] => x
  | x :: y :: ys => x ++ ' ' :: join_sp (y :: ys)

/-- The attribute-change sentence wording (src unparse,
AttributeChanges arm). -/
def attribute_change_line (c : AttributeChange) : List Char :=
  c.player_name ++ gained_plus_marker ++ int_chars c.amount ++ sp_l ++
    attr_chars c.attr ++ dot_l

/-- The newest attribute-equality wording: "became equal to their current
base" (src unparse, AttributeEquals arm, first branch). -/
def wording_current_base (c : AttributeEqual) : List Char :=
  c.player_name ++ poss_marker ++ attr_chars c.changing_attribute ++
    current_base_marker ++ attr_chars c.value_attribute ++ dot_l

/-- The player-narrated attribute-equality wording: "was set to their"
(src unparse, AttributeEquals arm, second branch). -/
def wording_set (c : AttributeEqual) : List Char :=
  c.player_name ++ poss_marker ++ attr_chars c.changing_attribute ++
    was_set_marker ++ attr_chars c.value_attribute ++ dot_l

/-- The umpire-narrated attribute-equality wording: "became equal to their
base" (src unparse, AttributeEquals arm, third branch). -/
def wording_base (c : AttributeEqual) : List Char :=
  c.player_name ++ poss_marker ++ attr_chars c.changing_attribute ++
    base_marker ++ attr_chars c.value_attribute ++ dot_l

/-- One rendered attribute-equality sentence (src unparse, AttributeEquals
arm): after the S1AttributeEqualChange threshold the current-base wording;
otherwise the wording depends on the narrator source. -/
def attribute_equal_line (event : FeedEvent) (source : FeedEventSource)
    (c : AttributeEqual) : List Char :=
  if Breakpoints.S1AttributeEqualChange.after event.season event.day then
    wording_current_base c
  else if source = FeedEventSource.Player then
    wording_set c
  else
    wording_base c

/-- The delivery renderer (src FeedDelivery::unparse), parameterized by
the caller-supplied label. -/
def FeedDelivery.unparse (d : FeedDelivery) (label : List Char) : List Char :=
  d.player ++ received_marker ++ d.item.display ++ ' ' :: (label ++ dot_l) ++
    (match d.discarded with
     | some it => discard_marker ++ it.display ++ dot_l
     | none => [])

/-- The S2 enchantment type word (src unparse, S2Enchantment arm). -/
def enchant_type_chars (compensatory : Bool) : List Char :=
  if compensatory then "Compensatory".toList else "Item".toList

/-- The renderer (src ParsedFeedEventText::unparse): structured variant
plus event metadata and narrator source to canonical text; a ParseError
renders as its stored original text unchanged. -/
def ParsedFeedEventText.unparse (v : ParsedFeedEventText) (event : FeedEvent)
    (source : FeedEventSource) : List Char :=
  match v with
  | .ParseError _ text => text
  | .GameResult home_team away_team home_score away_score =>
    away_team.display ++ vs_marker ++ home_team.display ++ dash_marker ++
      final_lit ++ nat_chars away_score ++ hyphen ++ nat_chars home_score
  | .Delivery d => d.unparse "Delivery".toList
  | .SpecialDelivery d => d.unparse "Special Delivery".toList
  | .Shipment d => d.unparse "Shipment".toList
  | .AttributeChanges changes =>
    join_sp (changes.map attribute_change_line)
  | .AttributeEquals equals =>
    join_sp (equals.map (attribute_equal_line event source))
  | .S1Enchantment player_name item amount attr =>
    if Breakpoints.Season1EnchantmentChange.before event.season event.day then
      player_name ++ poss_marker ++ item.display ++ enchanted_with_plus ++
        nat_chars amount ++ to_marker ++ attr_chars attr ++ dot_l
    else
      item_success_head ++ player_name ++ poss_marker ++ item.display ++
        gained_a_plus ++ nat_chars amount ++ sp_l ++ attr_chars attr ++
        bonus_marker
  | .S2Enchantment player_name item amount attr enchant_two compensatory =>
    "The ".toList ++ enchant_type_chars compensatory ++
      " Enchantment was a success! ".toList ++
      (match enchant_two with
       | some e2 =>
         player_name ++ poss_marker ++ item.display ++ enchanted_with_plus ++
           nat_chars amount ++ sp_l ++ attr_chars attr ++ and_plus ++
           nat_chars e2.1 ++ sp_l ++ attr_chars e2.2 ++ dot_l
       | none =>
         player_name ++ poss_marker ++ item.display ++ gained_a_plus ++
           nat_chars amount ++ sp_l ++ attr_chars attr ++ bonus_marker)
  | .ROBO player_name => player_name ++ robo_marker
  | .TakeTheMound to_mound_player to_lineup_player =>
    to_mound_player ++ moved_mound_marker ++ to_lineup_player ++
      sent_lineup_marker
  | .TakeThePlate to_plate_player from_lineup_player =>
    to_plate_player ++ sent_plate_marker ++ from_lineup_player ++
      pulled_lineup_marker
  | .SwapPlaces player_one player_two =>
    player_one ++ swapped_marker ++ player_two ++ dot_l
  | .HitByFallingStar player => player ++ falling_star_marker

/-- Does the renderer consult the event metadata or narrator source for
this variant? Only AttributeEquals and S1Enchantment do. -/
def uses_event_metadata : ParsedFeedEventText → Bool
  | .AttributeEquals _ => true
  | .S1Enchantment _ _ _ _ => true
  | _ => false

/-- Concrete unparseable Game text. -/
def c1_event : FeedEvent :=
  ⟨"hello".toList, Except.ok FeedEventType.Game, 1, some 1⟩

/-- Concrete error value stored for the unparseable Game text. -/
def c1_err : FeedEventParseError :=
  FeedEventParseError.FailedParsingText FeedEventType.Game "hello".toList

/-- Concrete text on which the attribute-gain grammar matches a prefix but
leaves unconsumed trailing characters. -/
def c2_text : List Char := "Bob gained +1 Awareness. xyz".toList

/-- Concrete Augment event wrapping c2_text. -/
def c2_event : FeedEvent :=
  ⟨c2_text, Except.ok FeedEventType.Augment, 1, some 1⟩

/-- The structured value the partial match produces before rejection. -/
def c2_value : ParsedFeedEventText :=
  ParsedFeedEventText.AttributeChanges
    [⟨"Bob".toList, 1, Attribute.Awareness⟩]

/-- The unconsumed trailing characters of c2_text. -/
def c2_leftover : List Char := " xyz".toList

/-- Concrete attribute-equality value used for rendering tests. -/
def c3_equal : AttributeEqual :=
  ⟨"Bob".toList, Attribute.Awareness, Attribute.Ruthlessness⟩

/-- Concrete event after the S1AttributeEqualChange threshold. -/
def c3_after_event : FeedEvent :=
  ⟨[], Except.ok FeedEventType.Augment, 5, some 1⟩

/-- Concrete event before the S1AttributeEqualChange threshold. -/
def c3_before_event : FeedEvent :=
  ⟨[], Except.ok FeedEventType.Augment, 0, some 1⟩

/-- Concrete event whose classification is an unrecognized token. -/
def c4_event : FeedEvent :=
  ⟨"odd".toList, Except.error ⟨"mystery".toList⟩, 2, none⟩

/-- Concrete attribute-equality text in the newest (current base) wording. -/
def c6_text : List Char :=
  "Foo".toList ++
    apos :: "s Awareness became equal to their current base Ruthlessness.".toList

/-- c6_text wrapped in an event dated before the S1AttributeEqualChange
threshold. -/
def c6_before_event : FeedEvent :=
  ⟨c6_text, Except.ok FeedEventType.Augment, 0, some 1⟩

/-- c6_text wrapped in an event dated after the S1AttributeEqualChange
threshold. -/
def c6_after_event : FeedEvent :=
  ⟨c6_text, Except.ok FeedEventType.Augment, 5, some 200⟩

/-- The game-result literal from the repository test suite. -/
def c7_text : List Char :=
  "🦖 Peoria Monster Monster Monster vs. 📮 Akron Anteaters Pace Stick - FINAL 2-4".toList

/-- c7_text wrapped in a Game event. -/
def c7_event : FeedEvent :=
  ⟨c7_text, Except.ok FeedEventType.Game, 1, some 1⟩

/-- The away team of the game-result literal. -/
def c7_away : EmojiTeam :=
  ⟨"🦖".toList, "Peoria Monster Monster Monster".toList⟩

/-- The home team of the game-result literal. -/
def c7_home : EmojiTeam :=
  ⟨"📮".toList, "Akron Anteaters Pace Stick".toList⟩

/-- The two-repetition attribute-change literal from the spec. -/
def c8_text : List Char :=
  "Wyatt Mason gained +2 Unthwackability. Wyatt Mason gained +1 Ruthlessness.".toList

/-- c8_text wrapped in an Augment event. -/
def c8_event : FeedEvent :=
  ⟨c8_text, Except.ok FeedEventType.Augment, 1, some 1⟩

/-- A one-repetition attribute-change text. -/
def c9_text : List Char := "Ann gained +3 Awareness.".toList

/-- c9_text wrapped in an Augment event. -/
def c9_event : FeedEvent :=
  ⟨c9_text, Except.ok FeedEventType.Augment, 1, some 2⟩

/-- The expected single-entry change list for c9_text. -/
def c9_changes : List AttributeChange :=
  [⟨"Ann".toList, 3, Attribute.Awareness⟩]

/-- Concrete event pair with differing metadata for the renderer
independence witness. -/
def c10_event_a : FeedEvent :=
  ⟨[], Except.ok FeedEventType.Augment, 0, some 1⟩

/-- Second concrete event with different text, type, season and day. -/
def c10_event_b : FeedEvent :=
  ⟨"zzz".toList, Except.ok FeedEventType.Game, 9, none⟩

/-- The list is obtained by running the repetition parser over the text
from left to right: each element is parsed from the segment where the
previous repetition stopped, so elements appear in input order. -/
inductive ChainParses {α : Type} (p : P α) : List Char → List Char → List α → Prop
  | nil (t : List Char) : ChainParses p t t []
  | cons {t mid rest : List Char} {a : α} {l : List α}
      (hp : p t = some (a, mid)) (hrest : ChainParses p mid rest l) :
      ChainParses p t rest (a :: l)

/-- The fuelled repetition collects its matches in input order. -/
theorem many0F_chain {α : Type} (p : P α) :
    ∀ (n : Nat) (t : List Char), ChainParses p t (many0F p n t).2 (many0F p n t).1 := by
  intro n
  induction n with
  | zero => intro t; exact ChainParses.nil t
  | succ n ih =>
    intro t
    simp only [many0F]
    cases hp : p t with
    | none => exact ChainParses.nil t
    | some s =>
      dsimp only
      by_cases hlen : s.2.length < t.length
      · rw [if_pos hlen]
        exact ChainParses.cons (by rw [hp]) (ih s.2)
      · rw [if_neg hlen]
        exact ChainParses.nil t

/-- The greedy repetition collects its matches in input order. -/
theorem many0_chain {α : Type} (p : P α) (t : List Char) :
    ChainParses p t (many0 p t).2 (many0 p t).1 :=
  many0F_chain p t.length t

/-- A successful one-or-more repetition yields a nonempty list collected in
input order. -/
theorem many1_chain {α : Type} {p : P α} {t rest : List Char} {l : List α}
    (h : many1 p t = some (l, rest)) : l ≠ [] ∧ ChainParses p t rest l := by
  simp only [many1, Option.map_eq_some'] at h
  obtain ⟨s, hp, he⟩ := h
  injection he with he1 he2
  subst he1; subst he2
  refine ⟨by simp, ?_⟩
  exact ChainParses.cons (by rw [hp]) (many0_chain p s.2)

/-- A successful ordered-alternative parse comes from some member of the
candidate list. -/
theorem alt_list_mem {α : Type} {l : List (P α)} {t : List Char}
    {x : α × List Char} (h : alt_list l t = some x) :
    ∃ p, p ∈ l ∧ p t = some x := by
  induction l with
  | nil => exact absurd h (by simp [alt_list])
  | cons p ps ih =>
    simp only [alt_list] at h
    cases hp : p t with
    | some r =>
      rw [hp] at h
      exact ⟨p, List.mem_cons_self p ps, by rw [hp]; exact h⟩
    | none =>
      rw [hp] at h
      obtain ⟨q, hq, hqt⟩ := ih h
      exact ⟨q, List.mem_cons_of_mem p hq, hqt⟩

/-- The ordered-alternative combinator commits to the first candidate that
succeeds: if every earlier candidate reports no match and a candidate
succeeds, its result is the overall result, and later candidates are not
consulted. -/
theorem alt_list_first {α : Type} {l1 l2 : List (P α)} {p : P α}
    {t : List Char} {x : α × List Char}
    (h1 : ∀ q ∈ l1, q t = none) (hp : p t = some x) :
    alt_list (l1 ++ p :: l2) t = some x := by
  induction l1 with
  | nil => simp only [List.nil_append, alt_list, hp]
  | cons q qs ih =>
    simp only [List.cons_append, alt_list]
    rw [h1 q (List.mem_cons_self q qs)]
    exact ih fun r hr => h1 r (List.mem_cons_of_mem q hr)

/-- The bucket grammar is the ordered-alternative resolution of the bucket
candidate list. -/
theorem grammar_for_eq (ty : FeedEventType) :
    grammar_for ty = alt_list (grammar_list ty) := by
  cases ty <;> rfl

/-- A game-result parse always produces the GameResult variant. -/
theorem game_result_shape {t r : List Char} {v : ParsedFeedEventText}
    (h : game_result t = some (v, r)) :
    ∃ a b c d, v = ParsedFeedEventText.GameResult a b c d := by
  simp only [game_result, Option.map_eq_some'] at h
  obtain ⟨s, hs, he⟩ := h
  injection he with he1 he2
  exact ⟨_, _, _, _, he1.symm⟩

/-- A Delivery-grammar parse always produces the Delivery variant. -/
theorem delivery_event_shape {t r : List Char} {v : ParsedFeedEventText}
    (h : delivery_event t = some (v, r)) :
    ∃ d, v = ParsedFeedEventText.Delivery d := by
  simp only [delivery_event, Option.map_eq_some'] at h
  obtain ⟨s, hs, he⟩ := h
  injection he with he1 he2
  exact ⟨_, he1.symm⟩

/-- A Shipment-grammar parse always produces the Shipment variant. -/
theorem shipment_event_shape {t r : List Char} {v : ParsedFeedEventText}
    (h : shipment_event t = some (v, r)) :
    ∃ d, v = ParsedFeedEventText.Shipment d := by
  simp only [shipment_event, Option.map_eq_some'] at h
  obtain ⟨s, hs, he⟩ := h
  injection he with he1 he2
  exact ⟨_, he1.symm⟩

/-- A SpecialDelivery-grammar parse always produces the SpecialDelivery
variant. -/
theorem special_delivery_event_shape {t r : List Char} {v : ParsedFeedEventText}
    (h : special_delivery_event t = some (v, r)) :
    ∃ d, v = ParsedFeedEventText.SpecialDelivery d := by
  simp only [special_delivery_event, Option.map_eq_some'] at h
  obtain ⟨s, hs, he⟩ := h
  injection he with he1 he2
  exact ⟨_, he1.symm⟩

/-- A falling-star parse always produces the HitByFallingStar variant. -/
theorem hit_by_falling_star_shape {t r : List Char} {v : ParsedFeedEventText}
    (h : hit_by_falling_star t = some (v, r)) :
    ∃ a, v = ParsedFeedEventText.HitByFallingStar a := by
  simp only [hit_by_falling_star, Option.map_eq_some'] at h
  obtain ⟨s, hs, he⟩ := h
  injection he with he1 he2
  exact ⟨_, he1.symm⟩

/-- An attribute-gain parse produces the AttributeChanges variant, carrying
exactly the list collected by the one-or-more repetition. -/
theorem attribute_gain_shape {t r : List Char} {v : ParsedFeedEventText}
    (h : attribute_gain t = some (v, r)) :
    ∃ cs, v = ParsedFeedEventText.AttributeChanges cs ∧
      many1 attribute_gain_rep t = some (cs, r) := by
  simp only [attribute_gain, Option.map_eq_some'] at h
  obtain ⟨s, hs, he⟩ := h
  injection he with he1 he2
  subst he2
  exact ⟨s.1, he1.symm, by rw [hs]⟩

/-- An attribute-equal parse in the first wording produces the
AttributeEquals variant, carrying exactly the collected repetition list. -/
theorem attribute_equal_1_shape {t r : List Char} {v : ParsedFeedEventText}
    (h : attribute_equal_1 t = some (v, r)) :
    ∃ es, v = ParsedFeedEventText.AttributeEquals es ∧
      many1 (attribute_equal_rep was_set_marker) t = some (es, r) := by
  simp only [attribute_equal_1, Option.map_eq_some'] at h
  obtain ⟨s, hs, he⟩ := h
  injection he with he1 he2
  subst he2
  exact ⟨s.1, he1.symm, by rw [hs]⟩

/-- An attribute-equal parse in the second wording produces the
AttributeEquals variant, carrying exactly the collected repetition list. -/
theorem attribute_equal_2_shape {t r : List Char} {v : ParsedFeedEventText}
    (h : attribute_equal_2 t = some (v, r)) :
    ∃ es, v = ParsedFeedEventText.AttributeEquals es ∧
      many1 (attribute_equal_rep base_marker) t = some (es, r) := by
  simp only [attribute_equal_2, Option.map_eq_some'] at h
  obtain ⟨s, hs, he⟩ := h
  injection he with he1 he2
  subst he2
  exact ⟨s.1, he1.symm, by rw [hs]⟩

/-- An attribute-equal parse in the third wording produces the
AttributeEquals variant, carrying exactly the collected repetition list. -/
theorem attribute_equal_3_shape {t r : List Char} {v : ParsedFeedEventText}
    (h : attribute_equal_3 t = some (v, r)) :
    ∃ es, v = ParsedFeedEventText.AttributeEquals es ∧
      many1 (attribute_equal_rep current_base_marker) t = some (es, r) := by
  simp only [attribute_equal_3, Option.map_eq_some'] at h
  obtain ⟨s, hs, he⟩ := h
  injection he with he1 he2
  subst he2
  exact ⟨s.1, he1.symm, by rw [hs]⟩

/-- A first-wording S1 enchantment parse produces the S1Enchantment
variant. -/
theorem enchantment_s1a_shape {t r : List Char} {v : ParsedFeedEventText}
    (h : enchantment_s1a t = some (v, r)) :
    ∃ a b c d, v = ParsedFeedEventText.S1Enchantment a b c d := by
  simp only [enchantment_s1a, Option.map_eq_some'] at h
  obtain ⟨s, hs, he⟩ := h
  injection he with he1 he2
  exact ⟨_, _, _, _, he1.symm⟩

/-- A second-wording S1 enchantment parse produces the S1Enchantment
variant. -/
theorem enchantment_s1b_shape {t r : List Char} {v : ParsedFeedEventText}
    (h : enchantment_s1b t = some (v, r)) :
    ∃ a b c d, v = ParsedFeedEventText.S1Enchantment a b c d := by
  simp only [enchantment_s1b, Option.map_eq_some'] at h
  obtain ⟨s, hs, he⟩ := h
  injection he with he1 he2
  exact ⟨_, _, _, _, he1.symm⟩

/-- An S2 enchantment parse produces the S2Enchantment variant. -/
theorem enchantment_s2_shape {t r : List Char} {v : ParsedFeedEventText}
    (h : enchantment_s2 t = some (v, r)) :
    ∃ a b c d e f, v = ParsedFeedEventText.S2Enchantment a b c d e f := by
  simp only [enchantment_s2, Option.map_eq_some'] at h
  obtain ⟨s, hs, he⟩ := h
  injection he with he1 he2
  exact ⟨_, _, _, _, _, _, he1.symm⟩

/-- A compensatory enchantment parse produces the S2Enchantment variant. -/
theorem enchantment_compensatory_shape {t r : List Char} {v : ParsedFeedEventText}
    (h : enchantment_compensatory t = some (v, r)) :
    ∃ a b c d e f, v = ParsedFeedEventText.S2Enchantment a b c d e f := by
  simp only [enchantment_compensatory, Option.map_eq_some'] at h
  obtain ⟨s, hs, he⟩ := h
  injection he with he1 he2
  exact ⟨_, _, _, _, _, _, he1.symm⟩

/-- A ROBO parse produces the ROBO variant. -/
theorem robo_shape {t r : List Char} {v : ParsedFeedEventText}
    (h : robo t = some (v, r)) :
    ∃ a, v = ParsedFeedEventText.ROBO a := by
  simp only [robo, Option.map_eq_some'] at h
  obtain ⟨s, hs, he⟩ := h
  injection he with he1 he2
  exact ⟨_, he1.symm⟩

/-- A take-the-mound parse produces the TakeTheMound variant. -/
theorem take_the_mound_shape {t r : List Char} {v : ParsedFeedEventText}
    (h : take_the_mound t = some (v, r)) :
    ∃ a b, v = ParsedFeedEventText.TakeTheMound a b := by
  simp only [take_the_mound, Option.map_eq_some'] at h
  obtain ⟨s, hs, he⟩ := h
  injection he with he1 he2
  exact ⟨_, _, he1.symm⟩

/-- A take-the-plate parse produces the TakeThePlate variant. -/
theorem take_the_plate_shape {t r : List Char} {v : ParsedFeedEventText}
    (h : take_the_plate t = some (v, r)) :
    ∃ a b, v = ParsedFeedEventText.TakeThePlate a b := by
  simp only [take_the_plate, Option.map_eq_some'] at h
  obtain ⟨s, hs, he⟩ := h
  injection he with he1 he2
  exact ⟨_, _, he1.symm⟩

/-- A swap-places parse produces the SwapPlaces variant. -/
theorem swap_places_shape {t r : List Char} {v : ParsedFeedEventText}
    (h : swap_places t = some (v, r)) :
    ∃ a b, v = ParsedFeedEventText.SwapPlaces a b := by
  simp only [swap_places, Option.map_eq_some'] at h
  obtain ⟨s, hs, he⟩ := h
  injection he with he1 he2
  exact ⟨_, _, he1.symm⟩

/-- No variant grammar ever constructs the ParseError variant: a full or
partial grammar success is always a structured variant. -/
theorem grammar_no_parse_error (ty : FeedEventType) {t r : List Char}
    {v : ParsedFeedEventText} (h : grammar_for ty t = some (v, r)) :
    ∀ e s, v ≠ ParsedFeedEventText.ParseError e s := by
  rw [grammar_for_eq] at h
  obtain ⟨p, hmem, hp⟩ := alt_list_mem h
  cases ty with
  | Game =>
    simp only [grammar_list, game_list, List.mem_cons, List.not_mem_nil,
      or_false] at hmem
    rcases hmem with rfl | rfl | rfl | rfl | rfl
    · obtain ⟨a, b, c, d, hv⟩ := game_result_shape hp
      exact fun e s hq => nomatch hv ▸ hq
    · obtain ⟨d, hv⟩ := delivery_event_shape hp
      exact fun e s hq => nomatch hv ▸ hq
    · obtain ⟨d, hv⟩ := shipment_event_shape hp
      exact fun e s hq => nomatch hv ▸ hq
    · obtain ⟨d, hv⟩ := special_delivery_event_shape hp
      exact fun e s hq => nomatch hv ▸ hq
    · obtain ⟨a, hv⟩ := hit_by_falling_star_shape hp
      exact fun e s hq => nomatch hv ▸ hq
  | Augment =>
    simp only [grammar_list, augment_list, List.mem_cons, List.not_mem_nil,
      or_false] at hmem
    rcases hmem with rfl | rfl | rfl | rfl | rfl | rfl | rfl | rfl | rfl | rfl | rfl | rfl
    · obtain ⟨cs, hv, hm⟩ := attribute_gain_shape hp
      exact fun e s hq => nomatch hv ▸ hq
    · obtain ⟨a, b, c, d, hv⟩ := enchantment_s1a_shape hp
      exact fun e s hq => nomatch hv ▸ hq
    · obtain ⟨a, b, c, d, hv⟩ := enchantment_s1b_shape hp
      exact fun e s hq => nomatch hv ▸ hq
    · obtain ⟨a, b, c, d, e2, f, hv⟩ := enchantment_s2_shape hp
      exact fun e s hq => nomatch hv ▸ hq
    · obtain ⟨a, b, c, d, e2, f, hv⟩ := enchantment_compensatory_shape hp
      exact fun e s hq => nomatch hv ▸ hq
    · obtain ⟨a, hv⟩ := robo_shape hp
      exact fun e s hq => nomatch hv ▸ hq
    · obtain ⟨a, b, hv⟩ := take_the_mound_shape hp
      exact fun e s hq => nomatch hv ▸ hq
    · obtain ⟨a, b, hv⟩ := take_the_plate_shape hp
      exact fun e s hq => nomatch hv ▸ hq
    · obtain ⟨es, hv, hm⟩ := attribute_equal_1_shape hp
      exact fun e s hq => nomatch hv ▸ hq
    · obtain ⟨es, hv, hm⟩ := attribute_equal_2_shape hp
      exact fun e s hq => nomatch hv ▸ hq
    · obtain ⟨es, hv, hm⟩ := attribute_equal_3_shape hp
      exact fun e s hq => nomatch hv ▸ hq
    · obtain ⟨a, b, hv⟩ := swap_places_shape hp
      exact fun e s hq => nomatch hv ▸ hq

/-- An AttributeChanges value produced by a bucket grammar comes from the
attribute-gain repetition grammar. -/
theorem grammar_attribute_changes (ty : FeedEventType) {t r : List Char}
    {cs : List AttributeChange}
    (h : grammar_for ty t = some (ParsedFeedEventText.AttributeChanges cs, r)) :
    many1 attribute_gain_rep t = some (cs, r) := by
  rw [grammar_for_eq] at h
  obtain ⟨p, hmem, hp⟩ := alt_list_mem h
  cases ty with
  | Game =>
    simp only [grammar_list, game_list, List.mem_cons, List.not_mem_nil,
      or_false] at hmem
    rcases hmem with rfl | rfl | rfl | rfl | rfl
    · obtain ⟨a, b, c, d, hv⟩ := game_result_shape hp; exact nomatch hv
    · obtain ⟨d, hv⟩ := delivery_event_shape hp; exact nomatch hv
    · obtain ⟨d, hv⟩ := shipment_event_shape hp; exact nomatch hv
    · obtain ⟨d, hv⟩ := special_delivery_event_shape hp; exact nomatch hv
    · obtain ⟨a, hv⟩ := hit_by_falling_star_shape hp; exact nomatch hv
  | Augment =>
    simp only [grammar_list, augment_list, List.mem_cons, List.not_mem_nil,
      or_false] at hmem
    rcases hmem with rfl | rfl | rfl | rfl | rfl | rfl | rfl | rfl | rfl | rfl | rfl | rfl
    · obtain ⟨cs2, hv, hm⟩ := attribute_gain_shape hp
      injection hv with hv1
      rw [hv1]
      exact hm
    · obtain ⟨a, b, c, d, hv⟩ := enchantment_s1a_shape hp; exact nomatch hv
    · obtain ⟨a, b, c, d, hv⟩ := enchantment_s1b_shape hp; exact nomatch hv
    · obtain ⟨a, b, c, d, e2, f, hv⟩ := enchantment_s2_shape hp; exact nomatch hv
    · obtain ⟨a, b, c, d, e2, f, hv⟩ := enchantment_compensatory_shape hp
      exact nomatch hv
    · obtain ⟨a, hv⟩ := robo_shape hp; exact nomatch hv
    · obtain ⟨a, b, hv⟩ := take_the_mound_shape hp; exact nomatch hv
    · obtain ⟨a, b, hv⟩ := take_the_plate_shape hp; exact nomatch hv
    · obtain ⟨es, hv, hm⟩ := attribute_equal_1_shape hp; exact nomatch hv
    · obtain ⟨es, hv, hm⟩ := attribute_equal_2_shape hp; exact nomatch hv
    · obtain ⟨es, hv, hm⟩ := attribute_equal_3_shape hp; exact nomatch hv
    · obtain ⟨a, b, hv⟩ := swap_places_shape hp; exact nomatch hv

/-- An AttributeEquals value produced by a bucket grammar comes from one of
the three era-wording repetition grammars. -/
theorem grammar_attribute_equals (ty : FeedEventType) {t r : List Char}
    {es : List AttributeEqual}
    (h : grammar_for ty t = some (ParsedFeedEventText.AttributeEquals es, r)) :
    ∃ m, m ∈ [was_set_marker, base_marker, current_base_marker] ∧
      many1 (attribute_equal_rep m) t = some (es, r) := by
  rw [grammar_for_eq] at h
  obtain ⟨p, hmem, hp⟩ := alt_list_mem h
  cases ty with
  | Game =>
    simp only [grammar_list, game_list, List.mem_cons, List.not_mem_nil,
      or_false] at hmem
    rcases hmem with rfl | rfl | rfl | rfl | rfl
    · obtain ⟨a, b, c, d, hv⟩ := game_result_shape hp; exact nomatch hv
    · obtain ⟨d, hv⟩ := delivery_event_shape hp; exact nomatch hv
    · obtain ⟨d, hv⟩ := shipment_event_shape hp; exact nomatch hv
    · obtain ⟨d, hv⟩ := special_delivery_event_shape hp; exact nomatch hv
    · obtain ⟨a, hv⟩ := hit_by_falling_star_shape hp; exact nomatch hv
  | Augment =>
    simp only [grammar_list, augment_list, List.mem_cons, List.not_mem_nil,
      or_false] at hmem
    rcases hmem with rfl | rfl | rfl | rfl | rfl | rfl | rfl | rfl | rfl | rfl | rfl | rfl
    · obtain ⟨cs, hv, hm⟩ := attribute_gain_shape hp; exact nomatch hv
    · obtain ⟨a, b, c, d, hv⟩ := enchantment_s1a_shape hp; exact nomatch hv
    · obtain ⟨a, b, c, d, hv⟩ := enchantment_s1b_shape hp; exact nomatch hv
    · obtain ⟨a, b, c, d, e2, f, hv⟩ := enchantment_s2_shape hp; exact nomatch hv
    · obtain ⟨a, b, c, d, e2, f, hv⟩ := enchantment_compensatory_shape hp
      exact nomatch hv
    · obtain ⟨a, hv⟩ := robo_shape hp; exact nomatch hv
    · obtain ⟨a, b, hv⟩ := take_the_mound_shape hp; exact nomatch hv
    · obtain ⟨a, b, hv⟩ := take_the_plate_shape hp; exact nomatch hv
    · obtain ⟨es2, hv, hm⟩ := attribute_equal_1_shape hp
      injection hv with hv1
      exact ⟨was_set_marker, by simp, by rw [hv1]; exact hm⟩
    · obtain ⟨es2, hv, hm⟩ := attribute_equal_2_shape hp
      injection hv with hv1
      exact ⟨base_marker, by simp, by rw [hv1]; exact hm⟩
    · obtain ⟨es2, hv, hm⟩ := attribute_equal_3_shape hp
      injection hv with hv1
      exact ⟨current_base_marker, by simp, by rw [hv1]; exact hm⟩
    · obtain ⟨a, b, hv⟩ := swap_places_shape hp; exact nomatch hv

/-- C4: for every feed event whose classification result is an
unrecognized token, parse_feed_event returns the unknown-classification
ParseError carrying the original text verbatim, without attempting any
grammar. -/
theorem c4_unknown_classification (event : FeedEvent) (e : NotRecognized)
    (h : event.event_type = Except.error e) :
    parse_feed_event event =
      ParsedFeedEventText.ParseError
        (FeedEventParseError.EventTypeNotRecognized e) event.text := by
  unfold parse_feed_event
  rw [h]

/-- Witness for C4 at a concrete unrecognized classification. -/
theorem c4_witness :
    parse_feed_event c4_event =
      ParsedFeedEventText.ParseError
        (FeedEventParseError.EventTypeNotRecognized ⟨"mystery".toList⟩)
        c4_event.text :=
  c4_unknown_classification c4_event ⟨"mystery".toList⟩ rfl

/-- C5: parse_feed_event is total: every input event yields a value, which
is the unknown-classification error, a full-match structured output of the
bucket grammar, or the failed-parse error carrying the original text. -/
theorem c5_total_outcome (event : FeedEvent) :
    (∃ e, event.event_type = Except.error e ∧
      parse_feed_event event =
        ParsedFeedEventText.ParseError
          (FeedEventParseError.EventTypeNotRecognized e) event.text) ∨
    (∃ ty out, event.event_type = Except.ok ty ∧
      grammar_for ty event.text = some (out, []) ∧
      parse_feed_event event = out) ∨
    (∃ ty, event.event_type = Except.ok ty ∧
      parse_feed_event event =
        ParsedFeedEventText.ParseError
          (FeedEventParseError.FailedParsingText ty event.text) event.text) := by
  cases hty : event.event_type with
  | error e =>
    exact Or.inl ⟨e, rfl, by simp only [parse_feed_event, hty]⟩
  | ok ty =>
    cases hg : grammar_for ty event.text with
    | none =>
      exact Or.inr (Or.inr ⟨ty, rfl, by simp only [parse_feed_event, hty, hg]⟩)
    | some x =>
      rcases x with ⟨out, rest⟩
      cases rest with
      | nil =>
        exact Or.inr (Or.inl ⟨ty, out, rfl, hg, by
          simp only [parse_feed_event, hty, hg]⟩)
      | cons c cs =>
        exact Or.inr (Or.inr ⟨ty, rfl, by
          simp only [parse_feed_event, hty, hg]⟩)

/-- C6 counterexample: the era resolver is not consulted while parsing: an
event dated strictly before the S1AttributeEqualChange threshold still
parses text written in the after-threshold wording, and the parse result
is identical for an event dated after the threshold, so the (season, day)
comparison cannot be selecting which wording grammar is attempted. -/
theorem c6_counterexample :
    Breakpoints.S1AttributeEqualChange.after c6_before_event.season
      c6_before_event.day = false ∧
    parse_feed_event c6_before_event =
      ParsedFeedEventText.AttributeEquals
        [⟨"Foo".toList, Attribute.Awareness, Attribute.Ruthlessness⟩] ∧
    parse_feed_event c6_before_event = parse_feed_event c6_after_event := by
  refine ⟨by decide, by decide, by decide⟩

/-- C6 amended: the threshold comparison is consulted only by the
renderer; the parser's result depends only on the text and the
classification, never on the event's (season, day). -/
theorem c6_amended_parse_metadata_independent (e1 e2 : FeedEvent)
    (htext : e1.text = e2.text) (htype : e1.event_type = e2.event_type) :
    parse_feed_event e1 = parse_feed_event e2 := by
  unfold parse_feed_event
  rw [htext, htype]

/-- Witness for the amended C6 at concrete events on opposite sides of the
threshold. -/
theorem c6_witness :
    parse_feed_event c6_before_event = parse_feed_event c6_after_event :=
  c6_amended_parse_metadata_independent c6_before_event c6_after_event rfl rfl

/-- C10: for every parsed value whose variant is neither AttributeEquals
nor S1Enchantment, the renderer ignores the event metadata and the
narrator source: two calls on the same value with different metadata and
source produce identical strings. -/
theorem c10_unparse_metadata_independent (v : ParsedFeedEventText)
    (e1 e2 : FeedEvent) (s1 s2 : FeedEventSource)
    (h : uses_event_metadata v = false) :
    v.unparse e1 s1 = v.unparse e2 s2 := by
  cases v <;> first
    | rfl
    | exact absurd h (by simp [uses_event_metadata])

/-- Witness for C10 at a concrete variant and two events differing in
text, classification, season, day and source. -/
theorem c10_witness :
    ParsedFeedEventText.unparse (ParsedFeedEventText.ROBO "Bob".toList)
        c10_event_a FeedEventSource.Player =
      ParsedFeedEventText.unparse (ParsedFeedEventText.ROBO "Bob".toList)
        c10_event_b FeedEventSource.Umpire :=
  c10_unparse_metadata_independent (ParsedFeedEventText.ROBO "Bob".toList)
    c10_event_a c10_event_b FeedEventSource.Player FeedEventSource.Umpire rfl

/-- C1: whenever parsing produces a ParseError (no grammar fully matched,
or the classification was unrecognized), unparsing that result reproduces
the event's original text exactly, character for character, regardless of
the metadata and source supplied to the renderer. -/
theorem c1_round_trip_on_parse_error (event ev2 : FeedEvent)
    (source : FeedEventSource) (err : FeedEventParseError) (txt : List Char)
    (h : parse_feed_event event = ParsedFeedEventText.ParseError err txt) :
    ParsedFeedEventText.unparse (ParsedFeedEventText.ParseError err txt)
      ev2 source = event.text := by
  have htxt : txt = event.text := by
    unfold parse_feed_event at h
    cases hty : event.event_type with
    | error e =>
      rw [hty] at h
      dsimp only at h
      injection h with h1 h2
      exact h2.symm
    | ok ty =>
      rw [hty] at h
      dsimp only at h
      cases hg : grammar_for ty event.text with
      | none =>
        rw [hg] at h
        dsimp only at h
        injection h with h1 h2
        exact h2.symm
      | some x =>
        rcases x with ⟨out, rest⟩
        cases rest with
        | nil =>
          rw [hg] at h
          dsimp only at h
          rw [h] at hg
          exact absurd rfl (grammar_no_parse_error ty hg err txt)
        | cons c cs =>
          rw [hg] at h
          dsimp only at h
          injection h with h1 h2
          exact h2.symm
  simp only [ParsedFeedEventText.unparse]
  exact htxt

/-- Witness for C1 at a concrete unparseable Game text. -/
theorem c1_witness :
    ParsedFeedEventText.unparse
        (ParsedFeedEventText.ParseError c1_err "hello".toList)
        c1_event FeedEventSource.Player = c1_event.text :=
  c1_round_trip_on_parse_error c1_event c1_event FeedEventSource.Player
    c1_err "hello".toList (by decide)

/-- C2: if every candidate before some grammar in the bucket's declared
order reports no match and that grammar matches a prefix of the text but
leaves unconsumed characters, the dispatcher returns the FailedParsingText
error carrying the coarse type and the untouched original text: the
partial result is never accepted and later candidates are not consulted. -/
theorem c2_leftover_rejection (event : FeedEvent) (ty : FeedEventType)
    (l1 l2 : List (P ParsedFeedEventText)) (p : P ParsedFeedEventText)
    (v : ParsedFeedEventText) (leftover : List Char)
    (hty : event.event_type = Except.ok ty)
    (hsplit : grammar_list ty = l1 ++ p :: l2)
    (hnone : ∀ q ∈ l1, q event.text = none)
    (hp : p event.text = some (v, leftover))
    (hne : leftover ≠ []) :
    parse_feed_event event =
      ParsedFeedEventText.ParseError
        (FeedEventParseError.FailedParsingText ty event.text) event.text := by
  have halt : grammar_for ty event.text = some (v, leftover) := by
    rw [grammar_for_eq, hsplit]
    exact alt_list_first hnone hp
  cases leftover with
  | nil => exact absurd rfl hne
  | cons c cs => simp only [parse_feed_event, hty, halt]

/-- Witness for C2: the first Augment candidate (attribute-gain) matches a
prefix of c2_text and leaves " xyz", and the dispatcher rejects it. -/
theorem c2_witness :
    parse_feed_event c2_event =
      ParsedFeedEventText.ParseError
        (FeedEventParseError.FailedParsingText FeedEventType.Augment c2_text)
        c2_text :=
  c2_leftover_rejection c2_event FeedEventType.Augment []
    [enchantment_s1a, enchantment_s1b, enchantment_s2,
     enchantment_compensatory, robo, take_the_mound, take_the_plate,
     attribute_equal_1, attribute_equal_2, attribute_equal_3, swap_places]
    attribute_gain c2_value c2_leftover rfl rfl (by simp) (by decide)
    (by decide)

/-- C3 counterexample: after the S1AttributeEqualChange threshold the
umpire-narrated and player-narrated renderings of the same AttributeEquals
value are identical, and the two source-distinguished wordings occur
before the threshold instead, contradicting the claim's placement of the
narrator distinction after the threshold. -/
theorem c3_counterexample :
    Breakpoints.S1AttributeEqualChange.after c3_after_event.season
      c3_after_event.day = true ∧
    ParsedFeedEventText.unparse
        (ParsedFeedEventText.AttributeEquals [c3_equal]) c3_after_event
        FeedEventSource.Umpire =
      ParsedFeedEventText.unparse
        (ParsedFeedEventText.AttributeEquals [c3_equal]) c3_after_event
        FeedEventSource.Player ∧
    Breakpoints.S1AttributeEqualChange.after c3_before_event.season
      c3_before_event.day = false ∧
    ParsedFeedEventText.unparse
        (ParsedFeedEventText.AttributeEquals [c3_equal]) c3_before_event
        FeedEventSource.Umpire ≠
      ParsedFeedEventText.unparse
        (ParsedFeedEventText.AttributeEquals [c3_equal]) c3_before_event
        FeedEventSource.Player := by
  refine ⟨by decide, by decide, by decide, by decide⟩

/-- C3 amended: for a fixed AttributeEquals value the renderer produces
three pairwise distinct wordings: a single source-independent wording for
events at or after the S1AttributeEqualChange threshold, and, for events
before the threshold, two different wordings distinguished by the
narrator source (player-narrated vs umpire-narrated). -/
theorem c3_amended_three_wordings (c : AttributeEqual) (e1 e2 : FeedEvent)
    (s : FeedEventSource)
    (h1 : Breakpoints.S1AttributeEqualChange.after e1.season e1.day = true)
    (h2 : Breakpoints.S1AttributeEqualChange.after e2.season e2.day = false) :
    ParsedFeedEventText.unparse
        (ParsedFeedEventText.AttributeEquals [c]) e1 s =
      wording_current_base c ∧
    ParsedFeedEventText.unparse
        (ParsedFeedEventText.AttributeEquals [c]) e2 FeedEventSource.Player =
      wording_set c ∧
    ParsedFeedEventText.unparse
        (ParsedFeedEventText.AttributeEquals [c]) e2 FeedEventSource.Umpire =
      wording_base c ∧
    wording_current_base c ≠ wording_set c ∧
    wording_current_base c ≠ wording_base c ∧
    wording_set c ≠ wording_base c := by
  refine ⟨?_, ?_, ?_, ?_, ?_, ?_⟩
  · simp [ParsedFeedEventText.unparse, join_sp, attribute_equal_line, h1]
  · simp [ParsedFeedEventText.unparse, join_sp, attribute_equal_line, h2]
  · simp [ParsedFeedEventText.unparse, join_sp, attribute_equal_line, h2]
  · intro hq
    have hl := congrArg List.length hq
    simp only [wording_current_base, wording_set, List.append_assoc,
      List.length_append] at hl
    have hm : current_base_marker.length ≠ was_set_marker.length := by decide
    omega
  · intro hq
    have hl := congrArg List.length hq
    simp only [wording_current_base, wording_base, List.append_assoc,
      List.length_append] at hl
    have hm : current_base_marker.length ≠ base_marker.length := by decide
    omega
  · intro hq
    have hl := congrArg List.length hq
    simp only [wording_set, wording_base, List.append_assoc,
      List.length_append] at hl
    have hm : was_set_marker.length ≠ base_marker.length := by decide
    omega

/-- Witness for the amended C3 at a concrete value and concrete events on
each side of the threshold. -/
theorem c3_witness :
    ParsedFeedEventText.unparse
        (ParsedFeedEventText.AttributeEquals [c3_equal]) c3_after_event
        FeedEventSource.Umpire = wording_current_base c3_equal ∧
    ParsedFeedEventText.unparse
        (ParsedFeedEventText.AttributeEquals [c3_equal]) c3_before_event
        FeedEventSource.Player = wording_set c3_equal ∧
    ParsedFeedEventText.unparse
        (ParsedFeedEventText.AttributeEquals [c3_equal]) c3_before_event
        FeedEventSource.Umpire = wording_base c3_equal ∧
    wording_current_base c3_equal ≠ wording_set c3_equal ∧
    wording_current_base c3_equal ≠ wording_base c3_equal ∧
    wording_set c3_equal ≠ wording_base c3_equal :=
  c3_amended_three_wordings c3_equal c3_after_event c3_before_event
    FeedEventSource.Umpire rfl rfl

/-- C7: the game-result literal parses to away team 🦖 Peoria Monster
Monster Monster, home team 📮 Akron Anteaters Pace Stick, away score 2 and
home score 4, and rendering that value in the
"away vs. home - FINAL away_score-home_score" convention reproduces the
literal. -/
theorem c7_game_result_literal :
    parse_feed_event c7_event =
      ParsedFeedEventText.GameResult c7_home c7_away 4 2 ∧
    ParsedFeedEventText.unparse
        (ParsedFeedEventText.GameResult c7_home c7_away 4 2) c7_event
        FeedEventSource.Player = c7_text := by
  refine ⟨by decide, by decide⟩

/-- C8: the two-repetition attribute-change literal parses to exactly two
entries, kept in input order, neither reordered nor deduplicated. -/
theorem c8_repetition_order :
    parse_feed_event c8_event =
      ParsedFeedEventText.AttributeChanges
        [⟨"Wyatt Mason".toList, 2, Attribute.Unthwackability⟩,
         ⟨"Wyatt Mason".toList, 1, Attribute.Ruthlessness⟩] := by
  decide

/-- C9: every successfully parsed AttributeChanges or AttributeEquals
value carries at least one repetition, and the list is the chain of
repetition matches collected left to right over the input text, so it
preserves input order. -/
theorem c9_nonempty_in_order (event : FeedEvent) :
    (∀ changes,
      parse_feed_event event = ParsedFeedEventText.AttributeChanges changes →
      changes ≠ [] ∧ ChainParses attribute_gain_rep event.text [] changes) ∧
    (∀ equals,
      parse_feed_event event = ParsedFeedEventText.AttributeEquals equals →
      equals ≠ [] ∧ ∃ m, m ∈ [was_set_marker, base_marker, current_base_marker] ∧
        ChainParses (attribute_equal_rep m) event.text [] equals) := by
  constructor
  · intro changes h
    unfold parse_feed_event at h
    cases hty : event.event_type with
    | error e => rw [hty] at h; dsimp only at h; exact nomatch h
    | ok ty =>
      rw [hty] at h
      dsimp only at h
      cases hg : grammar_for ty event.text with
      | none => rw [hg] at h; dsimp only at h; exact nomatch h
      | some x =>
        rcases x with ⟨out, rest⟩
        cases rest with
        | nil =>
          rw [hg] at h
          dsimp only at h
          rw [h] at hg
          obtain ⟨hne, hch⟩ := many1_chain (grammar_attribute_changes ty hg)
          exact ⟨hne, hch⟩
        | cons c cs => rw [hg] at h; dsimp only at h; exact nomatch h
  · intro equals h
    unfold parse_feed_event at h
    cases hty : event.event_type with
    | error e => rw [hty] at h; dsimp only at h; exact nomatch h
    | ok ty =>
      rw [hty] at h
      dsimp only at h
      cases hg : grammar_for ty event.text with
      | none => rw [hg] at h; dsimp only at h; exact nomatch h
      | some x =>
        rcases x with ⟨out, rest⟩
        cases rest with
        | nil =>
          rw [hg] at h
          dsimp only at h
          rw [h] at hg
          obtain ⟨m, hmem, hm⟩ := grammar_attribute_equals ty hg
          obtain ⟨hne, hch⟩ := many1_chain hm
          exact ⟨hne, m, hmem, hch⟩
        | cons c cs => rw [hg] at h; dsimp only at h; exact nomatch h

/-- Witness for C9 at a concrete one-repetition attribute-change event. -/
theorem c9_witness :
    c9_changes ≠ [] ∧
    ChainParses attribute_gain_rep c9_event.text [] c9_changes :=
  (c9_nonempty_in_order c9_event).1 c9_changes (by decide)
